import Mathlib

/-!
Verification development for the cclint listing-to-diagnostics pipeline
(src/cclint.py).  The Python source is shallowly embedded: each Python
function becomes an executable Lean definition over `String` / `List Char`
(the tool decodes all external text as ASCII, so Python `str`/`bytes` are
both modelled as Lean strings of ASCII characters).  Python exceptions that
can escape a function (IndexError / TypeError in `get_apis`, the TypeError
of `warnings.sort()` on a `None`-versus-string comparison) are modelled
by an `Option` result, `none` meaning the exception.  Regular expressions
are embedded as deterministic matchers; wherever the Python regex engine's
backtracking order matters the matcher reproduces it explicitly (comments
at each matcher explain the correspondence).
-/

namespace Cclint

/-- The two chunk-header kinds of the luac listing.  In the Python source the
current chunk is the string "main" or "function", or `None` before the first
header line; we use `Option ChunkKind` for exactly those three values. -/
inductive ChunkKind where
  | main : ChunkKind
  | function : ChunkKind
deriving DecidableEq, Repr

/-- One decoded listing line, the tuple
`(chunk, int(line), name, info)` appended by `parse_bytecode`.
`info` is `None` when the optional `\t; ...` annotation group is absent. -/
structure Instr where
  chunk : Option ChunkKind
  line : Nat
  name : String
  info : Option String
deriving DecidableEq, Repr

/-- One tuple `(action, line, name, chunk)` appended by `get_global_refs`;
`action` is the Python string "get" or "set", `name` is the instruction's
annotation (possibly `None`). -/
structure GlobalRef where
  action : String
  line : Nat
  name : Option String
  chunk : Option ChunkKind
deriving DecidableEq, Repr

/-- `lst.startswith(pre)` on character lists. -/
def lstartsWith : List Char → List Char → Bool
  | [], _ => true
  | _ :: _, [] => false
  | p :: ps, c :: cs => p = c && lstartsWith ps cs

/-- Python `s.rstrip("\r")`: removes every trailing carriage return. -/
def rstripCR (l : List Char) : List Char :=
  (l.reverse.dropWhile (fun c => c = '\r')).reverse

/-- Python `s.split("\n")`: split on every newline, keeping empty pieces;
always returns at least one piece (`"".split("\n") == [""]`). -/
def splitNlC : List Char → List (List Char)
  | [] => [[]]
  | '\n' :: r => [] :: splitNlC r
  | c :: r =>
    match splitNlC r with
    | p :: ps => (c :: p) :: ps
    | [] => [[c]]

/-- Python `s.split(",")` (used on a directive group). -/
def splitComma : List Char → List (List Char)
  | [] => [[]]
  | ',' :: r => [] :: splitComma r
  | c :: r =>
    match splitComma r with
    | p :: ps => (c :: p) :: ps
    | [] => [[c]]

/-- Decimal digits to the natural number `int(...)` parses. -/
def natOfDigits (l : List Char) : Nat :=
  l.foldl (fun n c => n * 10 + (c.toNat - 48)) 0

/-- The `[A-Z]` character class. -/
def isUpperAZ (c : Char) : Bool :=
  decide ('A' ≤ c ∧ c ≤ 'Z')

/-- The `[\d -]` character class of the instruction regex: an ASCII digit,
a space or a hyphen. -/
def isOperandChar (c : Char) : Bool :=
  c.isDigit || c = ' ' || c = '-'

/-- The `[ \t]` character class. -/
def isSpTab (c : Char) : Bool :=
  c = ' ' || c = '\t'

/-- Tail of the instruction regex after the opcode:
`[ \t]+[\d -]*(\t; (?P<info>.*))?$`.
The regex engine takes the `[ \t]+` run greedily and backtracks it one
character at a time; for each choice the `[\d -]*` run is forced maximal
(shrinking it leaves a digit/space/hyphen where only `\t` or end-of-line can
follow).  `j` is the number of `[ \t]` characters currently consumed; the
first `j` (from the maximal run downwards) for which the rest of the line is
empty or is `\t; info` wins.  Result: `none` = no match, `some none` = match
without annotation, `some (some s)` = match with annotation `s`. -/
def matchTailTry (cs : List Char) : Nat → Option (Option String)
  | 0 => none
  | j + 1 =>
    let rest := (cs.drop (j + 1)).dropWhile isOperandChar
    match rest with
    | [] => some none
    | '\t' :: ';' :: ' ' :: inf => some (some (String.mk inf))
    | _ => matchTailTry cs j

def matchTail (cs : List Char) : Option (Option String) :=
  matchTailTry cs (cs.takeWhile isSpTab).length

/-- The full instruction regex
`^\t\d+\t\[(?P<line>\d+)\]\t(?P<name>[A-Z]+)[ \t]+[\d -]*(\t; (?P<info>.*))?$`
(`instruction_regex` in the source).  Every quantifier before the tail is
forced maximal (shrinking any of them leaves a character of its own class
where a character of a different class is required), so the matcher is
deterministic up to the tail handled by `matchTail`.  Returns
`(line, opcode, annotation)` on a match. -/
def matchInstr (cs : List Char) : Option (Nat × String × Option String) :=
  match cs with
  | '\t' :: cs1 =>
    let d1 := cs1.takeWhile Char.isDigit
    let r1 := cs1.dropWhile Char.isDigit
    if d1 = [] then none
    else
      match r1 with
      | '\t' :: '[' :: cs2 =>
        let d2 := cs2.takeWhile Char.isDigit
        let r2 := cs2.dropWhile Char.isDigit
        if d2 = [] then none
        else
          match r2 with
          | ']' :: '\t' :: cs3 =>
            let nm := cs3.takeWhile isUpperAZ
            let r3 := cs3.dropWhile isUpperAZ
            if nm = [] then none
            else
              match matchTail r3 with
              | some inf => some (natOfDigits d2, String.mk nm, inf)
              | none => none
          | _ => none
      | _ => none
  | _ => none

/-- The loop body of `parse_bytecode`: `chunk` is the current chunk context
(`None` before the first header line).  Note the Python code has no guard
for `chunk is None`: an instruction line seen before any header is appended
with `chunk = None`. -/
def parseGo : Option ChunkKind → List (List Char) → List Instr
  | _, [] => []
  | chunk, l :: ls =>
    let l2 := rstripCR l
    if lstartsWith "main <".data l2 then parseGo (some ChunkKind.main) ls
    else if lstartsWith "function <".data l2 then parseGo (some ChunkKind.function) ls
    else
      match matchInstr l2 with
      | some t => ⟨chunk, t.1, t.2.1, t.2.2⟩ :: parseGo chunk ls
      | none => parseGo chunk ls

/-- `parse_bytecode(listing)` from the source. -/
def parse_bytecode (listing : String) : List Instr :=
  parseGo none (splitNlC listing.data)

/-- The characters of `l` after its last `'/'` (all of `l` if no slash). -/
def afterLastSlash (l : List Char) : List Char :=
  (l.reverse.takeWhile (fun c => c ≠ '/')).reverse

/-- The characters of `l` up to and including its last `'/'`
(`[]` if no slash). -/
def beforeLastSlash (l : List Char) : List Char :=
  (l.reverse.dropWhile (fun c => c ≠ '/')).reverse

/-- The module-name regex of `get_apis`:
`re.match(r"^\".*?(?P<api>[^/]+)\"$", info)`.
Semantics of that pattern: the string must begin and end with `'"'`; writing
`inner` for the text strictly between those two quotes, the lazy `.*?` must
cover everything up to and including the last `'/'` of `inner` (it is the
shortest prefix whose complement contains no slash, and `[^/]+` cannot match
a slash), so `api` is the part of `inner` after its last `'/'`, which must be
non-empty.  Since `.` does not match a newline while `[^/]` does, a newline
anywhere in `inner` at or before the last `'/'` kills the match. -/
def extract_api (s : String) : Option String :=
  match s.data with
  | [] => none
  | c :: cs =>
    if c = '"' ∧ cs.getLast? = some '"' then
      let inner := cs.dropLast
      let seg := afterLastSlash inner
      if seg ≠ [] ∧ '\n' ∉ beforeLastSlash inner then some (String.mk seg)
      else none
    else none

/-- Result of examining the three instructions that follow a matched
`GETGLOBAL os`/`GETGLOBAL bapil` in `get_apis`:
`crash` = the Python code raises (IndexError from indexing past the end of
the instruction list, or TypeError from `re.match` on `info = None`);
`noMatch` = some condition failed, scan advances one instruction;
`found api` = all four conditions hold and the module-name regex matched. -/
inductive WinRes where
  | crash : WinRes
  | noMatch : WinRes
  | found : String → WinRes
deriving DecidableEq, Repr

/-- The body of the `GETGLOBAL` branch of `get_apis`, checking
`instructions[i+1]` (`GETTABLE` of `"loadAPI"`), `instructions[i+2]`
(`LOADK`, whose annotation the module-name regex is applied to) and
`instructions[i+3]` (`CALL`).  The argument is the list of instructions
after position `i`; each unguarded Python index past the end is `crash`. -/
def windowCheck : List Instr → WinRes
  | [] => WinRes.crash
  | inst1 :: rest1 =>
    if inst1.name = "GETTABLE" ∧ inst1.info = some "\"loadAPI\"" then
      match rest1 with
      | [] => WinRes.crash
      | inst2 :: rest2 =>
        if inst2.name = "LOADK" then
          match rest2 with
          | [] => WinRes.crash
          | inst3 :: _ =>
            if inst3.name = "CALL" then
              match inst2.info with
              | none => WinRes.crash
              | some info2 =>
                match extract_api info2 with
                | some api => WinRes.found api
                | none => WinRes.noMatch
            else WinRes.noMatch
        else WinRes.noMatch
    else WinRes.noMatch

/-- `get_apis(instructions)` from the source, embedded as recursion on the
instruction list (the Python index `i` is the position of the list head;
`instructions[i+k]` is the k-th element of the tail `rest`).  An escaping
exception is modelled by the result `none`.  On a full four-instruction
match the extracted name is appended and the scan resumes after the window
(`i += 3` plus the loop's `i += 1`, i.e. on `rest.drop 3`, which is exactly
the tail after the `CALL` since the window matched); otherwise the scan
resumes one instruction later.  The fuel argument only makes the recursion
structural: every recursive call strictly shortens the list, so with fuel
`length + 1` (as `get_apis` supplies) the fuel never runs out before the
list is exhausted. -/
def getApisF : Nat → List Instr → Option (List String)
  | 0, _ => some []
  | _ + 1, [] => some []
  | f + 1, inst :: rest =>
    if inst.name = "GETGLOBAL" ∧ (inst.info = some "os" ∨ inst.info = some "bapil") then
      match windowCheck rest with
      | WinRes.crash => none
      | WinRes.noMatch => getApisF f rest
      | WinRes.found api => (getApisF f (rest.drop 3)).map (fun as_ => api :: as_)
    else getApisF f rest

def get_apis (instructions : List Instr) : Option (List String) :=
  getApisF (instructions.length + 1) instructions

/-- `get_global_refs(instructions)` from the source. -/
def get_global_refs (instructions : List Instr) : List GlobalRef :=
  instructions.filterMap (fun i =>
    if i.name = "GETGLOBAL" then some ⟨"get", i.line, i.info, i.chunk⟩
    else if i.name = "SETGLOBAL" then some ⟨"set", i.line, i.info, i.chunk⟩
    else none)

/-- Python `\w` over bytes: an ASCII letter, digit or underscore. -/
def isWordChar (c : Char) : Bool :=
  c.isAlphanum || c = '_'

/-- Python `\s` over bytes: ASCII space, tab, newline, carriage return,
form feed or vertical tab; also the set Python `bytes.strip()` removes. -/
def isPySpace (c : Char) : Bool :=
  c = ' ' || c = '\t' || c = '\n' || c = '\r' || c = '\x0b' || c = '\x0c'

/-- The `(?:,\s*\w+)*` part of the directive group regex, entered after a
complete `\w+` run: each iteration needs a comma, then a maximal `\s*` run,
then a non-empty maximal `\w+` run (`\s` and `\w` are disjoint, so no
backtracking arises); a comma not followed by such a run is left unconsumed
and the repetition stops (greedy `*`).  Returns the matched text and the
rest of the input.  The fuel argument only makes the recursion structural:
every iteration consumes at least two characters, so with fuel
`length + 1` (as `grpParse` supplies) it never runs out. -/
def grpIterF : Nat → List Char → List Char × List Char
  | 0, cs => ([], cs)
  | f + 1, cs =>
    match cs with
    | ',' :: r =>
      if (r.dropWhile isPySpace).takeWhile isWordChar = [] then ([], ',' :: r)
      else
        let pr := grpIterF f ((r.dropWhile isPySpace).dropWhile isWordChar)
        (',' :: (r.takeWhile isPySpace ++ (r.dropWhile isPySpace).takeWhile isWordChar ++ pr.1),
         pr.2)
    | other => ([], other)

/-- The capture group `(\w+(?:,\s*\w+)*)` of the three list-style directive
regexes: a non-empty maximal `\w+` run followed by the comma-separated
continuation.  Returns the captured text and the rest of the input, or
`none` if no `\w` character is present at the current position. -/
def grpParse (cs : List Char) : Option (List Char × List Char) :=
  if cs.takeWhile isWordChar = [] then none
  else
    let pr := grpIterF (cs.length + 1) (cs.dropWhile isWordChar)
    some (cs.takeWhile isWordChar ++ pr.1, pr.2)

/-- `re.finditer` of `marker(\w+(?:,\s*\w+)*)` over the source: scan left to
right; at a position where the literal marker is followed by a successful
group parse, record the group and resume after the match end
(non-overlapping), otherwise advance one character.  The fuel argument is
`src.length + 1`: every recursive call strictly shrinks the remaining input
(the marker is non-empty and a matched group is non-empty), so the fuel
never runs out before the input does. -/
def scanIterF (marker : List Char) : Nat → List Char → List (List Char)
  | 0, _ => []
  | f + 1, src =>
    if lstartsWith marker src then
      match grpParse (src.drop marker.length) with
      | some pr => pr.1 :: scanIterF marker f pr.2
      | none =>
        match src with
        | [] => []
        | _ :: t => scanIterF marker f t
    else
      match src with
      | [] => []
      | _ :: t => scanIterF marker f t

def scanIter (marker : List Char) (src : List Char) : List (List Char) :=
  scanIterF marker (src.length + 1) src

/-- Python `name.strip()` on an ASCII piece. -/
def stripPy (l : List Char) : List Char :=
  ((l.dropWhile isPySpace).reverse.dropWhile isPySpace).reverse

/-- `match.group(1).split(b",")` followed by `.decode("ascii").strip()` on
each piece, as in the three directive loops. -/
def directiveNames (g : List Char) : List String :=
  (splitComma g).map (fun p => String.mk (stripPy p))

/-- Python `needle in hay` for substrings. -/
def containsSubstr (needle : List Char) : List Char → Bool
  | [] => lstartsWith needle []
  | c :: t => lstartsWith needle (c :: t) || containsSubstr needle t

/-- The 4-tuple returned by `get_directives`.  The ignore lists hold
`Option String` because the Python lists hold strings here but `check` may
later append `None` annotation values to them (see `augment`). -/
structure Directives where
  ignore_global_get : List (Option String)
  ignore_global_set : List (Option String)
  set_globals_in_main : Bool
  cache_globals : Bool
deriving DecidableEq, Repr

/-- `get_directives(source)` from the source file. -/
def get_directives (source : String) : Directives :=
  let src := source.data
  let both := ((scanIter "lint-ignore-global: ".data src).map directiveNames).flatten
  let getOnly := ((scanIter "lint-ignore-global-get: ".data src).map directiveNames).flatten
  let setOnly := ((scanIter "lint-ignore-global-set: ".data src).map directiveNames).flatten
  { ignore_global_get := (both ++ getOnly).map some
    ignore_global_set := (both ++ setOnly).map some
    set_globals_in_main := containsSubstr "lint-set-globals-in-main-chunk".data src
    cache_globals := containsSubstr "lint-check-globals-cached".data src }

/-- The `lua51_builtins` tuple from the source. -/
def lua51_builtins : List String :=
  ["_G", "_VERSION", "LUA_PATH", "assert", "collectgarbage", "coroutine",
   "debug", "dofile", "error", "gcinfo", "getfenv", "getmetatable", "io",
   "ipairs", "load", "loadfile", "loadstring", "math", "module",
   "newproxy", "next", "os", "package", "pairs", "pcall", "print",
   "rawequal", "rawget", "rawset", "require", "select", "setfenv",
   "setmetatable", "string", "table", "tonumber", "tostring", "type",
   "unpack", "xpcall"]

/-- The `cc_builtins` tuple from the source. -/
def cc_builtins : List String :=
  ["colors", "colours", "disk", "fs", "gps", "help", "io", "keys",
   "paintutils", "parallel", "peripheral", "rednet", "redstone", "shell",
   "term", "textutils", "turtle", "vector"]

/-- Helper for the error-line regex: after the `.+?` has consumed at least
one character, scan forward for a `':'`; at each candidate try the
continuation on the text after the colon (lazy `.+?:` prefers the earliest
colon), and on failure let the colon itself be absorbed by `.+?` and keep
scanning. -/
def seekColon (cont : List Char → Option (Nat × String)) : List Char → Option (Nat × String)
  | [] => none
  | c :: rest =>
    if c = ':' then
      match cont rest with
      | some v => some v
      | none => seekColon cont rest
    else seekColon cont rest

/-- One `.+?:` segment of the error-line regex: consume at least one
character, then a colon found by `seekColon`. -/
def matchSegErr (cont : List Char → Option (Nat × String)) : List Char → Option (Nat × String)
  | [] => none
  | _ :: rest => seekColon cont rest

/-- The `(?P<line>\d+): (?P<message>.+)$` tail of the error-line regex:
a maximal non-empty digit run (shrinking it leaves a digit where `':'` is
required), then `": "`, then a non-empty message running to the end. -/
def matchTailErr (cs : List Char) : Option (Nat × String) :=
  if cs.takeWhile Char.isDigit = [] then none
  else
    match cs.dropWhile Char.isDigit with
    | ':' :: ' ' :: msg =>
      if msg = [] then none
      else some (natOfDigits (cs.takeWhile Char.isDigit), String.mk msg)
    | _ => none

/-- The error-line regex of `check`:
`re.match(r"^.+?:.+?:(?P<line>\d+): (?P<message>.+)$", error)`,
returning the line number (as `int(...)` parses it) and the message. -/
def matchErrLine (cs : List Char) : Option (Nat × String) :=
  matchSegErr (matchSegErr matchTailErr) cs

/-- The pad width of `check`'s `line_mask`:
`len(str(source.count(b"\n")))`. -/
def maskWidth (source : String) : Nat :=
  (toString (source.data.countP (fun c => decide (c = '\n')))).length

/-- Python `"{:Nd}".format(line)`: the decimal representation of `line`
right-aligned in a field of width `w`, padded with SPACES (the source's
format spec has no `0` flag, so the padding character is the default
space). -/
def padNum (w : Nat) (n : Nat) : String :=
  String.mk (List.replicate (w - (toString n).length) ' ') ++ toString n

/-- `add_message` from `check`: `"{}:{}: {}".format(type_, padded_line,
message)`. -/
def addMessage (w : Nat) (ty : String) (line : Nat) (msg : String) : String :=
  ty ++ ":" ++ padNum w line ++ ": " ++ msg

/-- The error branch of `check`: one Error message per error line matching
the error-line regex (after stripping trailing carriage returns). -/
def errMessages (w : Nat) (errors : String) : List String :=
  (splitNlC errors.data).filterMap (fun l =>
    match matchErrLine (rstripCR l) with
    | some p => some (addMessage w "E" p.1 p.2)
    | none => none)

/-- Python `str.format` of an `Option String` value: `None` formats as the
text "None". -/
def optFmt : Option String → String
  | some s => s
  | none => "None"

/-- The warning text `"global {} of '{}'".format(action, name)`. -/
def warnText (action : String) (name : Option String) : String :=
  "global " ++ action ++ " of '" ++ optFmt name ++ "'"

/-- Python `name in lst` for an annotation value against a list that may
contain both strings and `None`. -/
def pyInOpt (x : Option String) (l : List (Option String)) : Bool :=
  decide (x ∈ l)

/-- Python `name in lst` for an annotation value against a list of plain
strings (`None in lst` is `False`). -/
def pyInStr (x : Option String) (l : List String) : Bool :=
  match x with
  | none => false
  | some s => decide (s ∈ l)

/-- The `set_globals_in_main` pre-pass of `check`: for every reference with
`action == "set"` and `chunk == "main"`, append its name to both ignore
lists.  (The appended name is the raw annotation, possibly `None`.) -/
def augment : List GlobalRef → List (Option String) → List (Option String) →
    List (Option String) × List (Option String)
  | [], ig, iset => (ig, iset)
  | r :: rs, ig, iset =>
    if r.action = "set" ∧ r.chunk = some ChunkKind.main then
      augment rs (ig ++ [r.name]) (iset ++ [r.name])
    else augment rs ig iset

/-- The ignore lists actually used by `check`'s classification loop:
augmented by the main-chunk sets only when the
`lint-set-globals-in-main-chunk` directive was seen. -/
def effectiveIgnores (flag : Bool) (refs : List GlobalRef)
    (ig iset : List (Option String)) : List (Option String) × List (Option String) :=
  if flag then augment refs ig iset else (ig, iset)

/-- The body of `check`'s classification loop: `true` iff the reference
reaches the `warnings.append` call (no `continue` fires).  Mirrors the
Python `if action == "get": ... elif action == "set": ...` chain exactly. -/
def warnsOn (declared : List String) (ig iset : List (Option String))
    (cache : Bool) (r : GlobalRef) : Bool :=
  if r.action = "get" then
    if pyInOpt r.name ig then false
    else if pyInStr r.name declared then
      if cache = false then false
      else if r.chunk = some ChunkKind.main then false
      else true
    else true
  else if r.action = "set" then
    if r.name = some "_" then false
    else if pyInOpt r.name iset then false
    else true
  else true

/-- The tuples `(line, action, name)` appended to `warnings`, in traversal
order. -/
def classify (declared : List String) (ig iset : List (Option String))
    (cache : Bool) (refs : List GlobalRef) : List (Nat × String × Option String) :=
  refs.filterMap (fun r =>
    if warnsOn declared ig iset cache r then some (r.line, r.action, r.name) else none)

/-- Python `<` on the character lists of two strings: lexicographic by code
point, a strict prefix is smaller. -/
def strLtB : List Char → List Char → Bool
  | [], [] => false
  | [], _ :: _ => true
  | _ :: _, [] => false
  | a :: as_, b :: bs => if a < b then true else if b < a then false else strLtB as_ bs

/-- Ordering of the `name` component of a warning tuple.  In the Python
data these are strings or `None`; Python can compare two strings, and two
tuples with both names `None` compare equal without ever applying `<` to
`None`, but a `None`-versus-string comparison raises TypeError.  That error
case is handled by `pySortWarnings` below (which returns `none` exactly
when such a comparison is unavoidable); the `none`-versus-`some` branches
here only make the comparator total and are never reached on a list
accepted by `pySortWarnings`, because there the names of any two tuples
agreeing on line and action are either both `none` or both strings. -/
def optLtB : Option String → Option String → Bool
  | _, none => false
  | none, some _ => true
  | some a, some b => strLtB a.data b.data

/-- Python `<` on warning tuples `(line, action, name)`: lexicographic. -/
def wLtB (a b : Nat × String × Option String) : Bool :=
  if a.1 < b.1 then true
  else if b.1 < a.1 then false
  else if strLtB a.2.1.data b.2.1.data then true
  else if strLtB b.2.1.data a.2.1.data then false
  else optLtB a.2.2 b.2.2

/-- The non-strict order `a ≤ b` under which `warnings.sort()` sorts. -/
def wLe (a b : Nat × String × Option String) : Prop :=
  wLtB b a = false

/-- Stable insertion into a sorted list: `x` goes after every element
strictly below it and before the first element not below it, so elements
with equal keys keep their original relative order — the defining property
of Python's stable `list.sort()`. -/
def insertW (x : Nat × String × Option String) :
    List (Nat × String × Option String) → List (Nat × String × Option String)
  | [] => [x]
  | y :: ys => if wLtB y x then y :: insertW x ys else x :: y :: ys

/-- The sorted result of `warnings.sort()` when it succeeds: a stable sort
by the tuple order.  (A stable sort by a fixed total preorder has a unique
result, so insertion sort and Python's Timsort agree; see `pySortWarnings`
for the error case.) -/
def sortW : List (Nat × String × Option String) → List (Nat × String × Option String)
  | [] => []
  | x :: xs => insertW x (sortW xs)

/-- True iff the warning list contains two tuples with equal line, equal
action, and names one `None` and one string.  Python's tuple `<` resolves
any other pair without applying `<` to `None` (the first differing
component is the line, the action, or two strings; fully `None`-equal
tuples compare with `==` only), so every comparison `warnings.sort()`
performs on a conflict-free list is defined and agrees with `wLtB`.
Conversely, when such a pair exists it must be compared: tuples agreeing
on line and action cannot be separated by any third element (every other
element compares identically against both), so any correct comparison sort
must compare two of them directly, and a chain of comparisons across a
block containing both a `None` and a string name contains a
`None`-versus-string link, which raises TypeError. -/
def sortConflict (ws : List (Nat × String × Option String)) : Bool :=
  ws.any (fun a => ws.any (fun b =>
    decide (a.1 = b.1) && decide (a.2.1 = b.2.1) &&
    decide (a.2.2 = none) && decide (b.2.2 ≠ none)))

/-- `warnings.sort()` from `check`: `none` models the TypeError Python
raises exactly when the list has a conflict in the sense of
`sortConflict`; otherwise the unique stable ascending reordering. -/
def pySortWarnings (ws : List (Nat × String × Option String)) :
    Option (List (Nat × String × Option String)) :=
  if sortConflict ws then none else some (sortW ws)

/-- The warning tuples `check` computes for a clean compile (everything in
`check` after the `if errors:` branch, up to but excluding the sort and the
formatting).  `none` models an exception escaping `get_apis`. -/
def checkWarnTuples (source listing : String) : Option (List (Nat × String × Option String)) :=
  match get_apis (parse_bytecode listing) with
  | none => none
  | some apis =>
    let global_refs := get_global_refs (parse_bytecode listing)
    let declared_globals := lua51_builtins ++ cc_builtins ++ apis
    let d := get_directives source
    let p := effectiveIgnores d.set_globals_in_main global_refs
      d.ignore_global_get d.ignore_global_set
    some (classify declared_globals p.1 p.2 d.cache_globals global_refs)

/-- `check(source)` from the source file, with the external compiler's two
output channels (`listing`, `errors`) passed as arguments (the
`get_bytecode_listing` subprocess call is the out-of-scope collaborator).
Returns `none` when the Python function would raise: an IndexError or
TypeError escaping `get_apis`, or the TypeError from `warnings.sort()`
(see `pySortWarnings`). -/
def check (source listing errors : String) : Option (List String) :=
  if errors = "" then
    match checkWarnTuples source listing with
    | none => none
    | some ws =>
      match pySortWarnings ws with
      | none => none
      | some sorted =>
        some (sorted.map (fun t =>
          addMessage (maskWidth source) "W" t.1 (warnText t.2.1 t.2.2)))
  else some (errMessages (maskWidth source) errors)

/-! ### Supporting lemmas -/

theorem string_data_inj {a b : String} (h : a.data = b.data) : a = b := by
  cases a
  cases b
  exact congrArg String.mk h

theorem takeWhile_append_all (p : Char → Bool) (a b : List Char)
    (h : ∀ x ∈ a, p x = true) : (a ++ b).takeWhile p = a ++ b.takeWhile p := by
  induction a with
  | nil => simp
  | cons x xs ih =>
    have hx := h x (List.mem_cons_self x xs)
    simp [List.takeWhile_cons, hx, ih (fun y hy => h y (List.mem_cons_of_mem x hy))]

theorem dropWhile_append_all (p : Char → Bool) (a b : List Char)
    (h : ∀ x ∈ a, p x = true) : (a ++ b).dropWhile p = b.dropWhile p := by
  induction a with
  | nil => simp
  | cons x xs ih =>
    have hx := h x (List.mem_cons_self x xs)
    simp [List.dropWhile_cons, hx, ih (fun y hy => h y (List.mem_cons_of_mem x hy))]

theorem afterLastSlash_append (a b : List Char) (hb : '/' ∉ b) :
    afterLastSlash (a ++ '/' :: b) = b := by
  unfold afterLastSlash
  rw [List.reverse_append, List.reverse_cons, List.append_assoc]
  rw [takeWhile_append_all _ b.reverse _ ?_]
  · simp [List.takeWhile_cons]
  · intro x hx
    have hxb : x ∈ b := List.mem_reverse.mp hx
    simp only [decide_eq_true_eq]
    exact fun e => hb (e ▸ hxb)

theorem beforeLastSlash_append (a b : List Char) (hb : '/' ∉ b) :
    beforeLastSlash (a ++ '/' :: b) = a ++ ['/'] := by
  unfold beforeLastSlash
  rw [List.reverse_append, List.reverse_cons, List.append_assoc]
  rw [dropWhile_append_all _ b.reverse _ ?_]
  · simp [List.dropWhile_cons]
  · intro x hx
    have hxb : x ∈ b := List.mem_reverse.mp hx
    simp only [decide_eq_true_eq]
    exact fun e => hb (e ▸ hxb)

/-- The module-name extraction on a well-formed quoted path: the result is
exactly the trailing path segment after the last slash. -/
theorem extract_api_path (pre seg : String) (hseg : seg.data ≠ [])
    (hs : '/' ∉ seg.data) (hp : '\n' ∉ pre.data) :
    extract_api ("\"" ++ pre ++ "/" ++ seg ++ "\"") = some seg := by
  have hdata : ("\"" ++ pre ++ "/" ++ seg ++ "\"").data
      = '"' :: ((pre.data ++ '/' :: seg.data) ++ ['"']) := by
    simp [String.data_append]
  have hne : ('\n' : Char) ≠ '/' := by decide
  have h1 : ((pre.data ++ '/' :: seg.data) ++ ['"']).getLast? = some '"' :=
    List.getLast?_concat _
  have h2 : ((pre.data ++ '/' :: seg.data) ++ ['"']).dropLast = pre.data ++ '/' :: seg.data :=
    List.dropLast_concat
  unfold extract_api
  rw [hdata]
  simp only [h1, h2, afterLastSlash_append _ _ hs, beforeLastSlash_append _ _ hs]
  have h3 : '\n' ∉ pre.data ++ ['/'] := by
    simp only [List.mem_append, List.mem_singleton]
    rintro (h | h)
    · exact hp h
    · exact hne h
  rw [if_pos ⟨trivial, trivial⟩, if_pos ⟨hseg, h3⟩]

/-! ### The warning-tuple order is a linear order (up to equality of
tuples), so the stable insertion sort below both sorts and permutes. -/

theorem strLtB_asymm : ∀ a b : List Char, strLtB a b = true → strLtB b a = false := by
  intro a
  induction a with
  | nil =>
    intro b h
    cases b <;> simp [strLtB] at h ⊢
  | cons x xs ih =>
    intro b h
    cases b with
    | nil => simp [strLtB] at h
    | cons y ys =>
      simp only [strLtB] at h ⊢
      by_cases h1 : x < y
      · have h2 : ¬ y < x := lt_asymm h1
        simp [h1, h2]
      · by_cases h2 : y < x
        · simp [h1, h2] at h
        · simp only [h1, h2, if_false] at h ⊢
          exact ih ys h

theorem strLtB_conn : ∀ a b : List Char, strLtB a b = false → strLtB b a = false → a = b := by
  intro a
  induction a with
  | nil =>
    intro b h1 h2
    cases b <;> simp [strLtB] at h1 ⊢
  | cons x xs ih =>
    intro b h1 h2
    cases b with
    | nil => simp [strLtB] at h2
    | cons y ys =>
      simp only [strLtB] at h1 h2
      by_cases hxy : x < y
      · simp [hxy] at h1
      · by_cases hyx : y < x
        · simp [hyx] at h2
        · have hx : x = y := le_antisymm (not_lt.mp hyx) (not_lt.mp hxy)
          subst hx
          simp only [lt_irrefl, if_false] at h1 h2
          rw [ih ys h1 h2]

theorem strLtB_trans : ∀ a b c : List Char,
    strLtB a b = true → strLtB b c = true → strLtB a c = true := by
  intro a
  induction a with
  | nil =>
    intro b c h1 h2
    cases b with
    | nil => simp [strLtB] at h1
    | cons y ys =>
      cases c with
      | nil => simp [strLtB] at h2
      | cons z zs => simp [strLtB]
  | cons x xs ih =>
    intro b c h1 h2
    cases b with
    | nil => simp [strLtB] at h1
    | cons y ys =>
      cases c with
      | nil => simp [strLtB] at h2
      | cons z zs =>
        simp only [strLtB] at h1 h2 ⊢
        by_cases hxy : x < y
        · by_cases hyz : y < z
          · simp [lt_trans hxy hyz]
          · by_cases hzy : z < y
            · simp [hyz, hzy] at h2
            · have : y = z := le_antisymm (not_lt.mp hzy) (not_lt.mp hyz)
              subst this
              simp [hxy]
        · by_cases hyx : y < x
          · simp [hxy, hyx] at h1
          · have hxy' : x = y := le_antisymm (not_lt.mp hyx) (not_lt.mp hxy)
            subst hxy'
            simp only [lt_irrefl, if_false] at h1 h2 ⊢
            by_cases hxz : x < z
            · simp [hxz]
            · by_cases hzx : z < x
              · simp [hxz, hzx] at h2
              · simp only [hxz, hzx, if_false] at h2 ⊢
                exact ih ys zs h1 h2

theorem optLtB_asymm : ∀ a b : Option String, optLtB a b = true → optLtB b a = false := by
  intro a b h
  cases a <;> cases b <;> simp [optLtB] at h ⊢
  exact strLtB_asymm _ _ h

theorem optLtB_conn : ∀ a b : Option String,
    optLtB a b = false → optLtB b a = false → a = b := by
  intro a b h1 h2
  cases a <;> cases b <;> simp [optLtB] at h1 h2 ⊢
  exact string_data_inj (strLtB_conn _ _ h1 h2)

theorem optLtB_trans : ∀ a b c : Option String,
    optLtB a b = true → optLtB b c = true → optLtB a c = true := by
  intro a b c h1 h2
  cases a <;> cases b <;> cases c <;> simp [optLtB] at h1 h2 ⊢
  exact strLtB_trans _ _ _ h1 h2

theorem wLtB_asymm (a b : Nat × String × Option String)
    (h : wLtB a b = true) : wLtB b a = false := by
  unfold wLtB at h ⊢
  by_cases h1 : a.1 < b.1
  · have h2 : ¬ b.1 < a.1 := by omega
    simp [h1, h2]
  · by_cases h2 : b.1 < a.1
    · simp [h1, h2] at h
    · simp only [h1, h2, if_false] at h ⊢
      by_cases h3 : strLtB a.2.1.data b.2.1.data = true
      · simp [h3, strLtB_asymm _ _ h3]
      · replace h3 : strLtB a.2.1.data b.2.1.data = false := by
          simpa using h3
        by_cases h4 : strLtB b.2.1.data a.2.1.data = true
        · simp [h3, h4] at h
        · replace h4 : strLtB b.2.1.data a.2.1.data = false := by
            simpa using h4
          simp only [h3, h4, if_false] at h ⊢
          exact optLtB_asymm _ _ h

theorem wLtB_conn (a b : Nat × String × Option String)
    (h1 : wLtB a b = false) (h2 : wLtB b a = false) : a = b := by
  unfold wLtB at h1 h2
  by_cases ha : a.1 < b.1
  · simp [ha] at h1
  · by_cases hb : b.1 < a.1
    · simp [hb] at h2
    · have hn : a.1 = b.1 := by omega
      simp only [ha, hb, if_false] at h1 h2
      by_cases h3 : strLtB a.2.1.data b.2.1.data = true
      · simp [h3] at h1
      · replace h3 : strLtB a.2.1.data b.2.1.data = false := by simpa using h3
        by_cases h4 : strLtB b.2.1.data a.2.1.data = true
        · simp [h3, h4] at h2
        · replace h4 : strLtB b.2.1.data a.2.1.data = false := by simpa using h4
          simp only [h3, h4, if_false] at h1 h2
          have hs : a.2.1 = b.2.1 := string_data_inj (strLtB_conn _ _ h3 h4)
          have ho : a.2.2 = b.2.2 := optLtB_conn _ _ h1 h2
          exact Prod.ext hn (Prod.ext hs ho)

theorem wLtB_trans (a b c : Nat × String × Option String)
    (h1 : wLtB a b = true) (h2 : wLtB b c = true) : wLtB a c = true := by
  unfold wLtB at h1 h2 ⊢
  by_cases hab : a.1 < b.1
  · by_cases hbc : b.1 < c.1
    · simp [show a.1 < c.1 by omega]
    · by_cases hcb : c.1 < b.1
      · simp [hbc, hcb] at h2
      · have : b.1 = c.1 := by omega
        simp [show a.1 < c.1 by omega]
  · by_cases hba : b.1 < a.1
    · simp [hab, hba] at h1
    · have hn1 : a.1 = b.1 := by omega
      simp only [hab, hba, if_false] at h1
      by_cases hbc : b.1 < c.1
      · simp [show a.1 < c.1 by omega]
      · by_cases hcb : c.1 < b.1
        · simp [hbc, hcb] at h2
        · have hn2 : b.1 = c.1 := by omega
          simp only [hbc, hcb, if_false] at h2
          have hac : ¬ a.1 < c.1 := by omega
          have hca : ¬ c.1 < a.1 := by omega
          simp only [hac, hca, if_false]
          by_cases s1 : strLtB a.2.1.data b.2.1.data = true
          · by_cases s2 : strLtB b.2.1.data c.2.1.data = true
            · simp [strLtB_trans _ _ _ s1 s2]
            · replace s2 : strLtB b.2.1.data c.2.1.data = false := by simpa using s2
              by_cases s3 : strLtB c.2.1.data b.2.1.data = true
              · simp [s2, s3] at h2
              · replace s3 : strLtB c.2.1.data b.2.1.data = false := by simpa using s3
                have : b.2.1 = c.2.1 := string_data_inj (strLtB_conn _ _ s2 s3)
                rw [← this]
                simp [s1]
          · replace s1 : strLtB a.2.1.data b.2.1.data = false := by simpa using s1
            by_cases s1' : strLtB b.2.1.data a.2.1.data = true
            · simp [s1, s1'] at h1
            · replace s1' : strLtB b.2.1.data a.2.1.data = false := by simpa using s1'
              have hsab : a.2.1 = b.2.1 := string_data_inj (strLtB_conn _ _ s1 s1')
              simp only [s1, s1', if_false] at h1
              rw [hsab]
              by_cases s2 : strLtB b.2.1.data c.2.1.data = true
              · simp [s2]
              · replace s2 : strLtB b.2.1.data c.2.1.data = false := by simpa using s2
                by_cases s3 : strLtB c.2.1.data b.2.1.data = true
                · simp [s2, s3] at h2
                · replace s3 : strLtB c.2.1.data b.2.1.data = false := by simpa using s3
                  simp only [s2, s3, if_false] at h2 ⊢
                  exact optLtB_trans _ _ _ h1 h2

theorem wLe_trans (a b c : Nat × String × Option String)
    (h1 : wLe a b) (h2 : wLe b c) : wLe a c := by
  unfold wLe at h1 h2 ⊢
  by_cases hc : wLtB c a = true
  · by_cases hab : wLtB a b = true
    · rw [wLtB_trans c a b hc hab] at h2
      exact absurd h2 (by simp)
    · replace hab : wLtB a b = false := by simpa using hab
      have : a = b := wLtB_conn a b hab h1
      subst this
      rw [hc] at h2
      exact absurd h2 (by simp)
  · simpa using hc

theorem insertW_perm (x : Nat × String × Option String)
    (l : List (Nat × String × Option String)) : List.Perm (insertW x l) (x :: l) := by
  induction l with
  | nil => exact List.Perm.refl _
  | cons y ys ih =>
    simp only [insertW]
    split
    · exact (ih.cons y).trans (List.Perm.swap x y ys)
    · exact List.Perm.refl _

theorem insertW_sorted (x : Nat × String × Option String)
    (l : List (Nat × String × Option String)) (h : l.Pairwise wLe) :
    (insertW x l).Pairwise wLe := by
  induction l with
  | nil => simp [insertW]
  | cons y ys ih =>
    rcases List.pairwise_cons.mp h with ⟨hy, hys⟩
    simp only [insertW]
    split
    · rename_i hyx
      refine List.pairwise_cons.mpr ⟨?_, ih hys⟩
      intro z hz
      rcases List.mem_cons.mp ((insertW_perm x ys).mem_iff.mp hz) with rfl | hz2
      · exact wLtB_asymm y z hyx
      · exact hy z hz2
    · rename_i hyx
      have hxy : wLe x y := by
        unfold wLe
        simpa using hyx
      refine List.pairwise_cons.mpr ⟨?_, h⟩
      intro z hz
      rcases List.mem_cons.mp hz with rfl | hz2
      · exact hxy
      · exact wLe_trans x y z hxy (hy z hz2)

theorem sortW_perm (l : List (Nat × String × Option String)) :
    List.Perm (sortW l) l := by
  induction l with
  | nil => exact List.Perm.refl _
  | cons x xs ih => exact (insertW_perm x (sortW xs)).trans (ih.cons x)

theorem sortW_sorted (l : List (Nat × String × Option String)) :
    (sortW l).Pairwise wLe := by
  induction l with
  | nil => simp [sortW]
  | cons x xs ih => exact insertW_sorted x (sortW xs) ih

/-- The augmented get-ignore list is the original list followed by the names
of the main-chunk set references, in traversal order. -/
theorem augment_fst (refs : List GlobalRef) :
    ∀ ig iset, (augment refs ig iset).1
      = ig ++ refs.filterMap (fun r =>
          if r.action = "set" ∧ r.chunk = some ChunkKind.main then some r.name else none) := by
  induction refs with
  | nil => intro ig iset; simp [augment]
  | cons r rs ih =>
    intro ig iset
    by_cases hr : r.action = "set" ∧ r.chunk = some ChunkKind.main
    · simp only [augment, if_pos hr, ih, List.filterMap_cons, if_pos hr,
        List.append_assoc, List.singleton_append]
    · simp only [augment, if_neg hr, ih, List.filterMap_cons, if_neg hr]

/-- Same for the set-ignore list. -/
theorem augment_snd (refs : List GlobalRef) :
    ∀ ig iset, (augment refs ig iset).2
      = iset ++ refs.filterMap (fun r =>
          if r.action = "set" ∧ r.chunk = some ChunkKind.main then some r.name else none) := by
  induction refs with
  | nil => intro ig iset; simp [augment]
  | cons r rs ih =>
    intro ig iset
    by_cases hr : r.action = "set" ∧ r.chunk = some ChunkKind.main
    · simp only [augment, if_pos hr, ih, List.filterMap_cons, if_pos hr,
        List.append_assoc, List.singleton_append]
    · simp only [augment, if_neg hr, ih, List.filterMap_cons, if_neg hr]

/-! ### The claims -/

/-- Claim C1: whenever the external compiler produces non-empty error text,
`check` returns exactly the Error diagnostics parsed from the error lines
matching the `...:...:LINE: MESSAGE` pattern; every returned message is an
`E`-formatted diagnostic (zero warnings), and the result is completely
independent of the listing text — no listing parsing, API detection or
global-reference classification takes place. -/
theorem c1_compile_error_short_circuit (source listing listing' errors : String)
    (h : errors ≠ "") :
    check source listing errors = some (errMessages (maskWidth source) errors) ∧
    check source listing' errors = check source listing errors ∧
    (errMessages (maskWidth source) errors).all
      (fun m => lstartsWith "E:".data m.data) = true := by
  refine ⟨by simp [check, h], by simp [check, h], ?_⟩
  rw [List.all_eq_true]
  intro m hm
  rcases List.mem_filterMap.mp hm with ⟨l, _, hfl⟩
  cases hml : matchErrLine (rstripCR l) with
  | none =>
    rw [hml] at hfl
    exact absurd hfl (by simp)
  | some p =>
    rw [hml] at hfl
    have hme : m = addMessage (maskWidth source) "E" p.1 p.2 := (Option.some.inj hfl).symm
    rw [hme]
    simp [addMessage, lstartsWith, String.data_append]

/-- Claim C1 witness. -/
theorem c1_witness :
    check "" "La" "e:f:3: boom" = some (errMessages (maskWidth "") "e:f:3: boom") ∧
    check "" "Lb" "e:f:3: boom" = check "" "La" "e:f:3: boom" ∧
    (errMessages (maskWidth "") "e:f:3: boom").all
      (fun m => lstartsWith "E:".data m.data) = true :=
  c1_compile_error_short_circuit "" "La" "Lb" "e:f:3: boom" (by decide)

/-- Claim C2 counterexample: for a listing whose main chunk performs
`SETGLOBAL foo` and then `GETGLOBAL bar`, both at source line 1, the
classification traversal emits the set-warning first (tuples in emission
order: set before get), but the returned diagnostics list the get-warning
first — `warnings.sort()` sorts by the whole `(line, action, name)` tuple,
so at equal lines the relative order follows the action/name comparison,
not the order of emission.  In particular the output differs from the
emission-ordered formatting. -/
theorem c2_counterexample :
    checkWarnTuples ""
        "main <stdin:0,0>\n\t1\t[1]\tSETGLOBAL\t0 -1\t; foo\n\t2\t[1]\tGETGLOBAL\t0 -2\t; bar\n"
      = some [(1, "set", some "foo"), (1, "get", some "bar")] ∧
    check ""
        "main <stdin:0,0>\n\t1\t[1]\tSETGLOBAL\t0 -1\t; foo\n\t2\t[1]\tGETGLOBAL\t0 -2\t; bar\n"
        ""
      = some ["W:1: global get of 'bar'", "W:1: global set of 'foo'"] ∧
    check ""
        "main <stdin:0,0>\n\t1\t[1]\tSETGLOBAL\t0 -1\t; foo\n\t2\t[1]\tGETGLOBAL\t0 -2\t; bar\n"
        ""
      ≠ some ["W:1: global set of 'foo'", "W:1: global get of 'bar'"] := by
  refine ⟨by decide, by decide, by decide⟩

/-- Claim C2 (amended): provided `warnings.sort()` does not raise — no two
emitted warnings share line and action with exactly one name missing
(`sortConflict` is false; always the case for listings whose global
instructions all carry annotations, as luac emits) — the emitted warning
diagnostics are the classification-traversal tuples sorted by the
lexicographic order on the whole tuple `(line, action, name)`: ascending by
source line, and at equal lines ascending by action string ("get" before
"set") and then by name; the traversal (listing) order is preserved only
between fully identical tuples (the stable sort), not between distinct
warnings at the same line. -/
theorem c2_sorted_lexicographically (source listing : String)
    (ws : List (Nat × String × Option String))
    (h : checkWarnTuples source listing = some ws)
    (hc : sortConflict ws = false) :
    check source listing "" = some ((sortW ws).map (fun t =>
        addMessage (maskWidth source) "W" t.1 (warnText t.2.1 t.2.2))) ∧
    (sortW ws).Pairwise wLe ∧
    List.Perm (sortW ws) ws := by
  exact ⟨by simp [check, h, pySortWarnings, hc], sortW_sorted ws, sortW_perm ws⟩

/-- Claim C2 witness. -/
theorem c2_witness :
    check "" "main <s>\n\t1\t[4]\tGETGLOBAL\t0 -1\t; aa\n\t2\t[2]\tGETGLOBAL\t0 -2\t; bb\n" ""
      = some ((sortW [(4, "get", some "aa"), (2, "get", some "bb")]).map (fun t =>
          addMessage (maskWidth "") "W" t.1 (warnText t.2.1 t.2.2))) ∧
    (sortW [(4, "get", some "aa"), (2, "get", some "bb")]).Pairwise wLe ∧
    List.Perm (sortW [(4, "get", some "aa"), (2, "get", some "bb")])
      [(4, "get", some "aa"), (2, "get", some "bb")] :=
  c2_sorted_lexicographically ""
    "main <s>\n\t1\t[4]\tGETGLOBAL\t0 -1\t; aa\n\t2\t[2]\tGETGLOBAL\t0 -2\t; bb\n"
    [(4, "get", some "aa"), (2, "get", some "bb")] (by decide) (by decide)

/-- Claim C3 (code bug): the API-load detector does NOT terminate normally
on every instruction sequence.  On a sequence whose last instruction is a
`GETGLOBAL` with loader-object annotation `os`, the Python code evaluates
`instructions[i+1]` with no bounds check and raises IndexError (modelled
here by `get_apis` returning `none`), contradicting the claim that the
detector never raises and never reads outside the sequence. -/
theorem c3_get_apis_crash_at_boundary :
    get_apis [⟨some ChunkKind.main, 1, "GETGLOBAL", some "os"⟩] = none := by
  decide

/-- Claim C4 counterexample: a listing consisting of a single line that
matches the instruction grammar, with no chunk-header line before it, makes
`parse_bytecode` emit one record — with the undefined (`none`) chunk kind —
rather than skip the line as the claim states. -/
theorem c4_counterexample :
    parse_bytecode "\t1\t[1]\tGETGLOBAL\t0 -1\t; os"
      = [⟨none, 1, "GETGLOBAL", some "os"⟩] ∧
    parse_bytecode "\t1\t[1]\tGETGLOBAL\t0 -1\t; os" ≠ [] := by
  exact ⟨by decide, by decide⟩

/-- Claim C4 (amended): lines matching the instruction grammar that appear
before any chunk-header line are NOT skipped: each such line produces an
`InstructionRecord` whose chunk kind is the undefined value (`none`).  For
any listing with no header lines at all, `parse_bytecode` returns exactly
one record per grammar-matching line, all with undefined chunk. -/
theorem c4_preheader_records_undefined_chunk (listing : String)
    (h : ∀ l ∈ splitNlC listing.data,
      lstartsWith "main <".data (rstripCR l) = false ∧
      lstartsWith "function <".data (rstripCR l) = false) :
    parse_bytecode listing = (splitNlC listing.data).filterMap
      (fun l => (matchInstr (rstripCR l)).map (fun t =>
        (⟨none, t.1, t.2.1, t.2.2⟩ : Instr))) := by
  unfold parse_bytecode
  generalize splitNlC listing.data = ls at h ⊢
  induction ls with
  | nil => simp [parseGo]
  | cons l ls ih =>
    rcases h l (List.mem_cons_self _ _) with ⟨h1, h2⟩
    have ih' := ih (fun x hx => h x (List.mem_cons_of_mem _ hx))
    simp only [parseGo, List.filterMap_cons]
    rw [if_neg (by simp [h1]), if_neg (by simp [h2])]
    cases hm : matchInstr (rstripCR l) with
    | none => simpa [hm] using ih'
    | some t => simp [hm, ih']

/-- Claim C4 witness. -/
theorem c4_witness :
    parse_bytecode "\t5\t[2]\tSETGLOBAL\t0 -9\t; zz"
      = (splitNlC "\t5\t[2]\tSETGLOBAL\t0 -9\t; zz".data).filterMap
          (fun l => (matchInstr (rstripCR l)).map (fun t =>
            (⟨none, t.1, t.2.1, t.2.2⟩ : Instr))) :=
  c4_preheader_records_undefined_chunk "\t5\t[2]\tSETGLOBAL\t0 -9\t; zz" (by decide)

/-- Claim C5 counterexample: for a source with ten newlines (pad width 2,
since `len(str(10)) = 2`) and a clean listing referencing undeclared `bar`
at line 3, the emitted diagnostic is `"W: 3: global get of 'bar'"` — the
line field is padded with a space, not with a zero as the claim states. -/
theorem c5_counterexample :
    check "\n\n\n\n\n\n\n\n\n\n" "main <stdin:0,0>\n\t1\t[3]\tGETGLOBAL\t0 -1\t; bar\n" ""
      = some ["W: 3: global get of 'bar'"] ∧
    ("W: 3: global get of 'bar'" : String) ≠ "W:03: global get of 'bar'" := by
  exact ⟨by decide, by decide⟩

/-- Claim C5 (amended): every emitted diagnostic is formatted
`SEVERITY:LINE: text` where the LINE field is the decimal line number
right-aligned in a field whose width is that of the decimal representation
of the source's newline count, padded with SPACES (`padNum` pads with `' '`;
the Python format spec `{:Nd}` has no zero flag). -/
theorem c5_message_format_space_padded (source listing errors : String)
    (msgs : List String) (m : String) (h : check source listing errors = some msgs)
    (hm : m ∈ msgs) :
    ∃ ty ln txt, (ty = "E" ∨ ty = "W") ∧
      m = ty ++ ":" ++ padNum (maskWidth source) ln ++ ": " ++ txt := by
  unfold check at h
  by_cases he : errors = ""
  · rw [if_pos he] at h
    cases hw : checkWarnTuples source listing with
    | none =>
      rw [hw] at h
      exact absurd h (by simp)
    | some ws =>
      simp only [hw] at h
      cases hps : pySortWarnings ws with
      | none =>
        simp only [hps] at h
        exact absurd h (by simp)
      | some sorted =>
        simp only [hps] at h
        have hmsgs : msgs = sorted.map (fun t =>
            addMessage (maskWidth source) "W" t.1 (warnText t.2.1 t.2.2)) :=
          (Option.some.inj h).symm
        subst hmsgs
        rcases List.mem_map.mp hm with ⟨t, _, rfl⟩
        exact ⟨"W", t.1, warnText t.2.1 t.2.2, Or.inr rfl, rfl⟩
  · rw [if_neg he] at h
    have hmsgs : msgs = errMessages (maskWidth source) errors := (Option.some.inj h).symm
    subst hmsgs
    rcases List.mem_filterMap.mp hm with ⟨l, _, hfl⟩
    cases hml : matchErrLine (rstripCR l) with
    | none =>
      rw [hml] at hfl
      exact absurd hfl (by simp)
    | some p =>
      rw [hml] at hfl
      exact ⟨"E", p.1, p.2, Or.inl rfl, (Option.some.inj hfl).symm⟩

/-- Claim C5 witness. -/
theorem c5_witness :
    ∃ ty ln txt, (ty = "E" ∨ ty = "W") ∧
      ("W: 3: global get of 'bar'" : String)
        = ty ++ ":" ++ padNum (maskWidth "\n\n\n\n\n\n\n\n\n\n") ln ++ ": " ++ txt :=
  c5_message_format_space_padded "\n\n\n\n\n\n\n\n\n\n"
    "main <stdin:0,0>\n\t1\t[3]\tGETGLOBAL\t0 -1\t; bar\n" ""
    ["W: 3: global get of 'bar'"] "W: 3: global get of 'bar'" (by decide) (by decide)

/-- Claim C6: for a Get reference whose name is in the builtin
(`lua51_builtins`) or host-environment (`cc_builtins`) registry and not in
the get-ignore list, the classification warns exactly when
`check_cached_globals` is set and the reference's chunk is a nested
function chunk: with the flag set, a Main-chunk read is skipped and a
Function-chunk read warns; with the flag clear, no warning regardless of
chunk. -/
theorem c6_cached_globals_read (l : Nat) (name : String) (ch : ChunkKind)
    (apis : List String) (ig iset : List (Option String)) (cache : Bool)
    (h1 : name ∈ lua51_builtins ∨ name ∈ cc_builtins)
    (h2 : (some name : Option String) ∉ ig) :
    warnsOn (lua51_builtins ++ cc_builtins ++ apis) ig iset cache
      ⟨"get", l, some name, some ch⟩ = (cache && decide (ch = ChunkKind.function)) := by
  have hd : pyInStr (some name) (lua51_builtins ++ (cc_builtins ++ apis)) = true := by
    simp only [pyInStr, decide_eq_true_eq, List.mem_append]
    rcases h1 with h | h
    · exact Or.inl h
    · exact Or.inr (Or.inl h)
  have hig : pyInOpt (some name) ig = false := by
    simp [pyInOpt, h2]
  cases cache with
  | false => simp [warnsOn, hig, hd]
  | true => cases ch <;> simp [warnsOn, hig, hd]

/-- Claim C6 witness. -/
theorem c6_witness :
    warnsOn (lua51_builtins ++ cc_builtins ++ []) [] [] true
      ⟨"get", 7, some "print", some ChunkKind.function⟩
      = (true && decide (ChunkKind.function = ChunkKind.function)) :=
  c6_cached_globals_read 7 "print" ChunkKind.function [] [] [] true
    (Or.inl (by decide)) (by decide)

/-- Claim C7: when the four-instruction module-load idiom matches
(`GETGLOBAL os` / `GETTABLE "loadAPI"` / `LOADK` of a quoted path /
`CALL`), the detected module name is the trailing path segment after the
last `/` of the quoted path (so `"rom/apis/foo"` yields `foo`); with that
name in the declared-globals registry, an undeclared-style read of it is
suppressed (in any chunk, with `check_cached_globals` clear), while a read
of a different undeclared name such as `bar2` still warns. -/
theorem c7_module_load_idiom (pre seg : String) (l1 l2 l3 l4 l5 l6 : Nat)
    (ch : ChunkKind)
    (hseg : seg.data ≠ []) (hs : '/' ∉ seg.data) (hp : '\n' ∉ pre.data)
    (hb : seg ≠ "bar2") :
    get_apis [⟨some ChunkKind.main, l1, "GETGLOBAL", some "os"⟩,
              ⟨some ChunkKind.main, l2, "GETTABLE", some "\"loadAPI\""⟩,
              ⟨some ChunkKind.main, l3, "LOADK", some ("\"" ++ pre ++ "/" ++ seg ++ "\"")⟩,
              ⟨some ChunkKind.main, l4, "CALL", none⟩] = some [seg] ∧
    warnsOn (lua51_builtins ++ cc_builtins ++ [seg]) [] [] false
      ⟨"get", l5, some seg, some ch⟩ = false ∧
    warnsOn (lua51_builtins ++ cc_builtins ++ [seg]) [] [] false
      ⟨"get", l6, some "bar2", some ChunkKind.main⟩ = true := by
  refine ⟨?_, ?_, ?_⟩
  · have hw : windowCheck
        [⟨some ChunkKind.main, l2, "GETTABLE", some "\"loadAPI\""⟩,
         ⟨some ChunkKind.main, l3, "LOADK", some ("\"" ++ pre ++ "/" ++ seg ++ "\"")⟩,
         ⟨some ChunkKind.main, l4, "CALL", none⟩] = WinRes.found seg := by
      simp [windowCheck, extract_api_path pre seg hseg hs hp]
    simp [get_apis, getApisF, hw]
  · have hd : pyInStr (some seg) (lua51_builtins ++ (cc_builtins ++ [seg])) = true := by
      simp [pyInStr, List.mem_append]
    simp [warnsOn, pyInOpt, hd]
  · have hlua : ("bar2" : String) ∉ lua51_builtins := by decide
    have hcc : ("bar2" : String) ∉ cc_builtins := by decide
    have hd : pyInStr (some "bar2") (lua51_builtins ++ (cc_builtins ++ [seg])) = false := by
      simp only [pyInStr, decide_eq_false_iff_not, List.mem_append, List.mem_singleton]
      rintro (h | h | h)
      · exact hlua h
      · exact hcc h
      · exact hb h.symm
    simp [warnsOn, pyInOpt, hd]

/-- Claim C7 witness. -/
theorem c7_witness :
    get_apis [⟨some ChunkKind.main, 1, "GETGLOBAL", some "os"⟩,
              ⟨some ChunkKind.main, 1, "GETTABLE", some "\"loadAPI\""⟩,
              ⟨some ChunkKind.main, 1, "LOADK", some ("\"" ++ "rom/apis" ++ "/" ++ "foo" ++ "\"")⟩,
              ⟨some ChunkKind.main, 1, "CALL", none⟩] = some ["foo"] ∧
    warnsOn (lua51_builtins ++ cc_builtins ++ ["foo"]) [] [] false
      ⟨"get", 2, some "foo", some ChunkKind.main⟩ = false ∧
    warnsOn (lua51_builtins ++ cc_builtins ++ ["foo"]) [] [] false
      ⟨"get", 3, some "bar2", some ChunkKind.main⟩ = true :=
  c7_module_load_idiom "rom/apis" "foo" 1 1 1 1 2 3 ChunkKind.main
    (by decide) (by decide) (by decide) (by decide)

/-- Claim C8: with the `treat_main_chunk_sets_as_declarations` directive
set, every name written by a `{Set, chunk = Main}` reference is added to
both the get- and the set-ignore list before classification, so no
reference to that name — read or write, in any chunk — produces a
warning. -/
theorem c8_main_chunk_sets_ignored (refs : List GlobalRef)
    (ig0 is0 : List (Option String)) (nm : Option String) (l : Nat)
    (declared : List String) (cache : Bool) (r : GlobalRef)
    (hmem : (⟨"set", l, nm, some ChunkKind.main⟩ : GlobalRef) ∈ refs)
    (_hr : r ∈ refs) (hname : r.name = nm)
    (hact : r.action = "get" ∨ r.action = "set") :
    nm ∈ (effectiveIgnores true refs ig0 is0).1 ∧
    nm ∈ (effectiveIgnores true refs ig0 is0).2 ∧
    warnsOn declared (effectiveIgnores true refs ig0 is0).1
      (effectiveIgnores true refs ig0 is0).2 cache r = false := by
  have hf : nm ∈ refs.filterMap (fun r =>
      if r.action = "set" ∧ r.chunk = some ChunkKind.main then some r.name else none) :=
    List.mem_filterMap.mpr ⟨_, hmem, by simp⟩
  have h1 : nm ∈ (effectiveIgnores true refs ig0 is0).1 := by
    rw [show effectiveIgnores true refs ig0 is0 = augment refs ig0 is0 from rfl, augment_fst]
    exact List.mem_append.mpr (Or.inr hf)
  have h2 : nm ∈ (effectiveIgnores true refs ig0 is0).2 := by
    rw [show effectiveIgnores true refs ig0 is0 = augment refs ig0 is0 from rfl, augment_snd]
    exact List.mem_append.mpr (Or.inr hf)
  refine ⟨h1, h2, ?_⟩
  rcases hact with hg | hs'
  · have hin : pyInOpt r.name (effectiveIgnores true refs ig0 is0).1 = true := by
      rw [hname]
      simp [pyInOpt, h1]
    simp [warnsOn, hg, hin]
  · by_cases hn : r.name = some "_"
    · simp [warnsOn, hs', hn]
    · have hin : pyInOpt r.name (effectiveIgnores true refs ig0 is0).2 = true := by
        rw [hname]
        simp [pyInOpt, h2]
      simp [warnsOn, hs', hn, hin]

/-- Claim C8 witness. -/
theorem c8_witness :
    (some "x" : Option String) ∈ (effectiveIgnores true
      [⟨"set", 2, some "x", some ChunkKind.main⟩,
       ⟨"get", 3, some "x", some ChunkKind.function⟩] [] []).1 ∧
    (some "x" : Option String) ∈ (effectiveIgnores true
      [⟨"set", 2, some "x", some ChunkKind.main⟩,
       ⟨"get", 3, some "x", some ChunkKind.function⟩] [] []).2 ∧
    warnsOn []
      (effectiveIgnores true
        [⟨"set", 2, some "x", some ChunkKind.main⟩,
         ⟨"get", 3, some "x", some ChunkKind.function⟩] [] []).1
      (effectiveIgnores true
        [⟨"set", 2, some "x", some ChunkKind.main⟩,
         ⟨"get", 3, some "x", some ChunkKind.function⟩] [] []).2
      true ⟨"get", 3, some "x", some ChunkKind.function⟩ = false :=
  c8_main_chunk_sets_ignored
    [⟨"set", 2, some "x", some ChunkKind.main⟩,
     ⟨"get", 3, some "x", some ChunkKind.function⟩]
    [] [] (some "x") 2 [] true ⟨"get", 3, some "x", some ChunkKind.function⟩
    (by decide) (by decide) rfl (Or.inl rfl)

/-- Claim C9: a Set reference whose name is the single-underscore discard
identifier never produces a warning, for every declared-globals registry,
every pair of ignore lists, every `check_cached_globals` value and every
chunk kind (including the undefined one). -/
theorem c9_set_discard_never_warns (declared : List String)
    (ig iset : List (Option String)) (cache : Bool) (l : Nat)
    (ch : Option ChunkKind) :
    warnsOn declared ig iset cache ⟨"set", l, some "_", ch⟩ = false := by
  simp [warnsOn]

/-- Claim C10: if the error text is non-empty but none of its lines matches
the `...:...:LINE: MESSAGE` pattern, `check` returns the empty diagnostic
list — no Error diagnostics, and (by the short-circuit) no Warning
diagnostics either, whatever the source and listing contain. -/
theorem c10_unmatched_error_text_empty (source listing errors : String)
    (h : errors ≠ "")
    (h2 : ∀ l ∈ splitNlC errors.data, matchErrLine (rstripCR l) = none) :
    check source listing errors = some [] := by
  have he : errMessages (maskWidth source) errors = [] := by
    apply List.filterMap_eq_nil_iff.mpr
    intro l hl
    rw [h2 l hl]
  simp [check, h, he]

/-- Claim C10 witness: the listing references undeclared globals, yet the
result is empty because the (unmatchable) error text short-circuits. -/
theorem c10_witness :
    check "x = y" "main <s>\n\t1\t[1]\tGETGLOBAL\t0 -1\t; zzz\n" "syntax error" = some [] :=
  c10_unmatched_error_text_empty "x = y" "main <s>\n\t1\t[1]\tGETGLOBAL\t0 -1\t; zzz\n"
    "syntax error" (by decide) (by decide)

end Cclint
